import Mathlib

/-
Shallow embedding of the safe_numerics library (Boost.SafeNumerics fork).

Machine integer types are embedded by their mathematical value (Int) together
with the closed range [min, max] of the C++ type; a template instantiation
becomes a Lean function parameterised by those range endpoints.  C++ code that
can throw through the exception policy is embedded in the Except monad, where
`.error` is a thrown exception.

Source files embedded (paths relative to the repository root):
  - src/unnamed/part_000                      safe_compare.hpp,
                                              safe_base_operations.hpp,
                                              safe_common.hpp
  - src/include/boost/safe_numerics/interval.hpp
  - src/include/boost/safe_numerics/checked_result.hpp
  - src/include/boost/safe_numerics/exception_policies.hpp

The checked runtime primitives (checked_integer.hpp), the checked_result
operator overloads (checked_result_operations.hpp) and the error enumeration
(exception.hpp) are declared and used by the sources above but their
definitions are not part of the source tree; those definitions are modelled
from the specification and are marked `Modelled from the spec:` below.
-/

namespace SafeNumerics

/-- Modelled from the spec: the error enumeration of exception.hpp (not in the
source tree).  The enumerator names are those consumed by the switch in
make_safe_numerics_action (exception_policies.hpp) and by the spec's ErrorKind
list. -/
inductive safe_numerics_error where
  | success
  | positive_overflow_error
  | negative_overflow_error
  | underflow_error
  | range_error
  | precision_overflow_error
  | domain_error
  | negative_shift
  | negative_value_shift
  | shift_too_large
  | uninitialized_value
deriving DecidableEq

/-- Modelled from the spec: the action-category enumeration of exception.hpp
(not in the source tree); the enumerator names appear in
exception_policies.hpp. -/
inductive safe_numerics_actions where
  | no_action
  | uninitialized_value
  | arithmetic_error
  | implementation_defined_behavior
  | undefined_behavior
deriving DecidableEq

/-- exception_policies.hpp, make_safe_numerics_action: map an error code to the
action category which it corresponds to (the constexpr switch, transcribed
case for case). -/
def make_safe_numerics_action : safe_numerics_error → safe_numerics_actions
  | .negative_overflow_error => .arithmetic_error
  | .underflow_error => .arithmetic_error
  | .range_error => .arithmetic_error
  | .domain_error => .arithmetic_error
  | .positive_overflow_error => .arithmetic_error
  | .precision_overflow_error => .arithmetic_error
  | .negative_value_shift => .implementation_defined_behavior
  | .negative_shift => .implementation_defined_behavior
  | .shift_too_large => .implementation_defined_behavior
  | .uninitialized_value => .uninitialized_value
  | .success => .no_action

/-- boost::logic::tribool (external collaborator of interval.hpp): Kleene
three-valued logic. -/
inductive tribool where
  | tfalse
  | ttrue
  | indeterminate
deriving DecidableEq

/-- tribool negation. -/
def tribool.neg : tribool → tribool
  | .ttrue => .tfalse
  | .tfalse => .ttrue
  | .indeterminate => .indeterminate

/-- tribool conjunction (Kleene). -/
def tribool.and : tribool → tribool → tribool
  | .tfalse, _ => .tfalse
  | _, .tfalse => .tfalse
  | .ttrue, .ttrue => .ttrue
  | _, _ => .indeterminate

/-- Embed a Bool as a tribool. -/
def tribool.ofB (b : Bool) : tribool := if b then .ttrue else .tfalse

/-- checked_result.hpp: the union member of checked_result — in C++ the same
storage holds either the value member m_r or the message member m_msg,
selected by which constructor ran. -/
inductive crContents where
  | value (r : Int)
  | message (m : String)
deriving DecidableEq

/-- checked_result.hpp: sum type holding either a valid value or a classified
failure; m_e is the stored error enumerator, m_contents the union. -/
structure checked_result where
  m_e : safe_numerics_error
  m_contents : crContents
deriving DecidableEq

/-- checked_result.hpp, constructor from a valid value r. -/
def checked_result.ofValue (r : Int) : checked_result :=
  ⟨.success, .value r⟩

/-- checked_result.hpp, constructor from error information (the constructor
asserts e is not success; all uses below pass a non-success enumerator). -/
def checked_result.ofError (e : safe_numerics_error) (msg : String) : checked_result :=
  ⟨e, .message msg⟩

/-- checked_result.hpp, exception(): true if the instance holds an error. -/
def checked_result.exception (c : checked_result) : Bool :=
  c.m_e != .success

/-- The C++ read of the union's value member m_r.  When the message member is
active this read yields an unspecified bit pattern; the model uses the
arbitrary placeholder 0 for those unspecified bits. -/
def checked_result.readR (c : checked_result) : Int :=
  match c.m_contents with
  | .value r => r
  | .message _ => 0

/-- The C++ read of the union's message member m_msg; unspecified (placeholder
empty string) when the value member is active. -/
def checked_result.readMsg (c : checked_result) : String :=
  match c.m_contents with
  | .value _ => ""
  | .message m => m

/-- checked_result.hpp lines 146-153, operator R: extract the wrapped value.
An Option return models the C++ assert facility: none is a failed assertion
(abort), some is a normal return.  In the source the assert is commented out
("don't assert here.  Let the library catch these errors"), so the operator
always returns — it silently reads the union's value member even when a
failure is held. -/
def checked_result.operatorR (c : checked_result) : Option Int :=
  some c.readR

/-- checked_result.hpp lines 165-171, operator const char *: returns a pointer
to the included error message after assert(exception()); none models the
failed assertion when the instance holds a success. -/
def checked_result.operatorMsg (c : checked_result) : Option String :=
  if c.exception then some c.readMsg else none

/-- exception_policies.hpp: an exception policy is four independently
configurable handlers.  Each shipped handler either throws
(throw_exception) or is a no-op (ignore_exception); a field records whether
the handler for that category throws. -/
structure ExceptionPolicy where
  on_arithmetic_error : Bool
  on_implementation_defined_behavior : Bool
  on_undefined_behavior : Bool
  on_uninitialized_value : Bool
deriving DecidableEq

/-- Whether the policy's handler for an action category throws. -/
def throwsOn (EP : ExceptionPolicy) : safe_numerics_actions → Bool
  | .arithmetic_error => EP.on_arithmetic_error
  | .implementation_defined_behavior => EP.on_implementation_defined_behavior
  | .undefined_behavior => EP.on_undefined_behavior
  | .uninitialized_value => EP.on_uninitialized_value
  | .no_action => false

/-- exception_policies.hpp, loose_exception_policy: throw on arithmetic
errors, ignore everything else. -/
def loose_exception_policy : ExceptionPolicy :=
  ⟨true, false, false, false⟩

/-- exception_policies.hpp, strict_exception_policy: throw on arithmetic,
implementation-defined and undefined behavior; ignore uninitialized value. -/
def strict_exception_policy : ExceptionPolicy :=
  ⟨true, true, true, false⟩

/-- exception_policies.hpp: the default policy is the strict one. -/
def default_exception_policy : ExceptionPolicy :=
  strict_exception_policy

/-- A policy whose four handlers are all ignore_exception (exception_policy
instantiated with ignore_exception everywhere); used to exercise the code
paths that are only reachable when the dispatcher does not throw. -/
def ignore_all_policy : ExceptionPolicy :=
  ⟨false, false, false, false⟩

/-- Computations that may throw through the exception policy: `.error` carries
the thrown error enumerator and message. -/
abbrev CRun (α : Type) : Type := Except (safe_numerics_error × String) α

/-- safe_base_operations.hpp lines 301-306, dispatch: convert the error code
to an action code and invoke the policy's handler for it (throwing handlers
raise; ignoring handlers are a no-op). -/
def dispatch (EP : ExceptionPolicy) (e : safe_numerics_error) (msg : String) : CRun Unit :=
  if throwsOn EP (make_safe_numerics_action e) then .error (e, msg) else .ok ()

/-- safe_base_operations.hpp lines 310-320, dispatch_and_return: dispatch the
error then return it wrapped in a checked_result (reached only when the
handler did not throw). -/
def dispatch_and_return (EP : ExceptionPolicy) (e : safe_numerics_error) (msg : String) :
    CRun checked_result :=
  match dispatch EP e msg with
  | .error ex => .error ex
  | .ok _ => .ok (.ofError e msg)

/-- C++ static_cast / implicit integral conversion onto a type whose value
range is [lo, hi]: value preserving in range, otherwise reduced modulo the
width of the type (two's-complement conversion semantics). -/
def static_cast_wrap (lo hi t : Int) : Int :=
  lo + (t - lo) % (hi - lo + 1)

/-- Modelled from the spec: checked::cast of checked_integer.hpp (not in the
source tree) used on compile-time bounds — validate a value of one type into
the range [lo, hi]; the mathematically exact value or a classified overflow
failure (§4.2 of the spec: detect every violation; a value above the target
range is a positive overflow, below a negative overflow). -/
def cr_cast (lo hi t : Int) : checked_result :=
  if hi < t then .ofError .positive_overflow_error "converted value too large"
  else if t < lo then .ofError .negative_overflow_error "converted value too small"
  else .ofValue t

/-- Modelled from the spec: heterogeneous_checked_operation<R, Min, Max, T,
dispatch_and_return<EP, R>>::cast of checked_integer.hpp (not in the source
tree) — the runtime range-cast of §4.2/§4.5: bounds check against [lo, hi]
and on violation report through the dispatcher. -/
def hetero_checked_cast (EP : ExceptionPolicy) (lo hi t : Int) : CRun checked_result :=
  if hi < t then dispatch_and_return EP .positive_overflow_error "converted value too large"
  else if t < lo then dispatch_and_return EP .negative_overflow_error "converted value too small"
  else .ok (.ofValue t)

/-- Modelled from the spec: checked_operation<R, dispatch_and_return>::add of
checked_integer.hpp (not in the source tree) — exact addition with
positive/negative overflow detection against the target range (§4.2), failures
routed through the dispatcher. -/
def checked_op_add (EP : ExceptionPolicy) (lo hi a b : Int) : CRun checked_result :=
  if hi < a + b then dispatch_and_return EP .positive_overflow_error "addition result too large"
  else if a + b < lo then dispatch_and_return EP .negative_overflow_error "addition result too small"
  else .ok (.ofValue (a + b))

/-- Modelled from the spec: checked_operation::subtract of
checked_integer.hpp (not in the source tree) — exact subtraction with overflow
detection (§4.2). -/
def checked_op_subtract (EP : ExceptionPolicy) (lo hi a b : Int) : CRun checked_result :=
  if hi < a - b then dispatch_and_return EP .positive_overflow_error "subtraction result too large"
  else if a - b < lo then dispatch_and_return EP .negative_overflow_error "subtraction result too small"
  else .ok (.ofValue (a - b))

/-- Modelled from the spec: checked_operation::multiply of
checked_integer.hpp (not in the source tree) — exact multiplication with
overflow detection (§4.2). -/
def checked_op_multiply (EP : ExceptionPolicy) (lo hi a b : Int) : CRun checked_result :=
  if hi < a * b then dispatch_and_return EP .positive_overflow_error "multiplication result too large"
  else if a * b < lo then dispatch_and_return EP .negative_overflow_error "multiplication result too small"
  else .ok (.ofValue (a * b))

/-- Modelled from the spec: checked_operation::divide of checked_integer.hpp
(not in the source tree) — §4.2: domain_error for division by zero, else the
exact (C++ truncating) quotient with overflow detection. -/
def checked_op_divide (EP : ExceptionPolicy) (lo hi a b : Int) : CRun checked_result :=
  if b = 0 then dispatch_and_return EP .domain_error "divide by zero"
  else if hi < Int.tdiv a b then dispatch_and_return EP .positive_overflow_error "division result too large"
  else if Int.tdiv a b < lo then dispatch_and_return EP .negative_overflow_error "division result too small"
  else .ok (.ofValue (Int.tdiv a b))

/-- Modelled from the spec: the ordering of checked_result values
(checked_result_operations.hpp, not in the source tree): three-valued, a bound
that carries a failure state is propagated as indeterminate rather than
silently using a placeholder value (§4.1 invariant). -/
def cr_lt (a b : checked_result) : tribool :=
  if a.exception || b.exception then .indeterminate
  else .ofB (decide (a.readR < b.readR))

/-- Modelled from the spec: less-or-equal on checked_result values
(checked_result_operations.hpp, not in the source tree), indeterminate when a
bound carries failure state. -/
def cr_le (a b : checked_result) : tribool :=
  if a.exception || b.exception then .indeterminate
  else .ofB (decide (a.readR ≤ b.readR))

/-- Modelled from the spec: the minimum of two checked_result values as used
by utility::minmax (utility.hpp, not in the source tree); failure state is
propagated (§4.1 invariant). -/
def cr_min (a b : checked_result) : checked_result :=
  if a.exception then a
  else if b.exception then b
  else if a.readR ≤ b.readR then a else b

/-- Modelled from the spec: the maximum of two checked_result values as used
by utility::minmax (utility.hpp, not in the source tree); failure state is
propagated (§4.1 invariant). -/
def cr_max (a b : checked_result) : checked_result :=
  if a.exception then a
  else if b.exception then b
  else if a.readR ≤ b.readR then b else a

/-- Modelled from the spec: checked addition of two checked_result bounds
against the storage range [lo, hi] (checked_result_operations.hpp, not in the
source tree); failure state propagates, an unrepresentable sum is a
positive/negative overflow (§4.2). -/
def cr_add (lo hi : Int) (a b : checked_result) : checked_result :=
  if a.exception then a
  else if b.exception then b
  else if hi < a.readR + b.readR then .ofError .positive_overflow_error "addition result too large"
  else if a.readR + b.readR < lo then .ofError .negative_overflow_error "addition result too small"
  else .ofValue (a.readR + b.readR)

/-- Modelled from the spec: checked division of two checked_result bounds
against the storage range [lo, hi] (checked_result_operations.hpp, not in the
source tree); failure state propagates, a zero divisor is a domain_error, an
unrepresentable quotient is an overflow (§4.2). -/
def cr_div (lo hi : Int) (a b : checked_result) : checked_result :=
  if a.exception then a
  else if b.exception then b
  else if b.readR = 0 then .ofError .domain_error "divide by zero"
  else if hi < Int.tdiv a.readR b.readR then .ofError .positive_overflow_error "division result too large"
  else if Int.tdiv a.readR b.readR < lo then .ofError .negative_overflow_error "division result too small"
  else .ofValue (Int.tdiv a.readR b.readR)

/-- Min and max of four checked_result values (utility::minmax over an
initializer list of four entries). -/
def cr_minmax4 (a b c d : checked_result) : checked_result × checked_result :=
  (cr_min (cr_min a b) (cr_min c d), cr_max (cr_max a b) (cr_max c d))

/-- Min and max of eight checked_result values (utility::minmax over an
initializer list of eight entries). -/
def cr_minmax8 (a b c d e f g h : checked_result) : checked_result × checked_result :=
  (cr_min (cr_min (cr_min a b) (cr_min c d)) (cr_min (cr_min e f) (cr_min g h)),
   cr_max (cr_max (cr_max a b) (cr_max c d)) (cr_max (cr_max e f) (cr_max g h)))

/-- interval.hpp lines 52-113: a closed interval, the Int instance of the
template (bounds are the mathematical values of the C++ bounds). -/
structure interval where
  l : Int
  u : Int
deriving DecidableEq

/-- interval.hpp lines 144-149, operator+: add two intervals (the formula
transcribed: lower = t.l + u.l, upper = t.u + u.u). -/
def interval.add (t u : interval) : interval :=
  ⟨t.l + u.l, t.u + u.u⟩

/-- interval.hpp lines 154-159, operator-: subtract two intervals (the
formula transcribed: lower = t.l - u.u, upper = t.u - u.l). -/
def interval.sub (t u : interval) : interval :=
  ⟨t.l - u.u, t.u - u.l⟩

/-- interval.hpp line 94, includes(point): l <= t && t <= u (Int instance, so
the tribool is two-valued). -/
def interval.includesPt (i : interval) (t : Int) : Bool :=
  decide (i.l ≤ t) && decide (t ≤ i.u)

/-- interval.hpp lines 100-102, includes(interval): u >= t.u && l <= t.l. -/
def interval.includesIv (i t : interval) : Bool :=
  decide (t.u ≤ i.u) && decide (i.l ≤ t.l)

/-- interval.hpp lines 226-230, intersect: t.u >= u.l || t.l <= u.u,
transcribed as written in the source (note the disjunction). -/
def intersect (t u : interval) : Bool :=
  decide (u.l ≤ t.u) || decide (t.l ≤ u.u)

/-- interval.hpp lines 235-247, operator<: ttrue when t.u < u.l, tfalse when
t.l > u.u, indeterminate otherwise. -/
def interval.lt (t u : interval) : tribool :=
  if t.u < u.l then .ttrue
  else if u.u < t.l then .tfalse
  else .indeterminate

/-- interval.hpp lines 252-264, operator>: ttrue when t.l > u.u, tfalse when
t.u < u.l, indeterminate otherwise. -/
def interval.gt (t u : interval) : tribool :=
  if u.u < t.l then .ttrue
  else if t.u < u.l then .tfalse
  else .indeterminate

/-- interval.hpp lines 286-290, operator<=: !(t > u). -/
def interval.le (t u : interval) : tribool :=
  (interval.gt t u).neg

/-- interval.hpp lines 295-299, operator>=: !(t < u). -/
def interval.ge (t u : interval) : tribool :=
  (interval.lt t u).neg

namespace safe_compare

/-- safe_compare.hpp lines 31-71, safe_compare_detail::less_than<TS, US>: the
sign-aware less-than primitive.  TS / US say whether the left / right C++
operand type is signed.  In the mixed-sign specializations the source first
tests the sign of the signed operand and only then casts it (then
non-negative, so value preserving) to its unsigned counterpart for the base
comparison; the base template's native comparison of two same-signedness (or
sign-guarded) operands is value preserving under the usual arithmetic
conversions, so it is embedded as the mathematical comparison. -/
def detail_less_than : Bool → Bool → Int → Int → Bool
  | false, true, t, u => if u < 0 then false else decide (t < u)
  | true, false, t, u => if t < 0 then true else decide (t < u)
  | true, true, t, u => decide (t < u)
  | false, false, t, u => decide (t < u)

/-- safe_compare.hpp lines 93-103, less_than on integral operands: invoke the
detail primitive with the two signedness flags. -/
def less_than (TS US : Bool) (lhs rhs : Int) : Bool :=
  detail_less_than TS US lhs rhs

/-- safe_compare.hpp lines 114-117, greater_than: less_than with the operands
(and hence their signedness flags) swapped. -/
def greater_than (TS US : Bool) (lhs rhs : Int) : Bool :=
  less_than US TS rhs lhs

/-- safe_compare.hpp lines 119-122, less_than_equal: ! greater_than. -/
def less_than_equal (TS US : Bool) (lhs rhs : Int) : Bool :=
  ! greater_than TS US lhs rhs

/-- safe_compare.hpp lines 124-127, greater_than_equal: ! less_than. -/
def greater_than_equal (TS US : Bool) (lhs rhs : Int) : Bool :=
  ! less_than TS US lhs rhs

/-- safe_compare.hpp lines 129-171, safe_compare_detail::equal<TS, US>: the
sign-aware equality primitive — a mixed-sign pair with the signed operand
negative is unequal, otherwise the value comparison. -/
def detail_equal : Bool → Bool → Int → Int → Bool
  | false, true, t, u => if u < 0 then false else decide (t = u)
  | true, false, t, u => if t < 0 then false else decide (t = u)
  | true, true, t, u => decide (t = u)
  | false, false, t, u => decide (t = u)

/-- safe_compare.hpp lines 173-183, equal on integral operands. -/
def equal (TS US : Bool) (lhs rhs : Int) : Bool :=
  detail_equal TS US lhs rhs

/-- safe_compare.hpp lines 194-197, not_equal: ! equal. -/
def not_equal (TS US : Bool) (lhs rhs : Int) : Bool :=
  ! equal TS US lhs rhs

end safe_compare

/-- safe_base_operations.hpp lines 329-375, validate_detail::return_value
(and lines 383-388, safe_base::validated_cast which forwards to it): validate
an input value of a type with static range [tmin, tmax] for storage in the
declared range [Min, Max].
If the target range contains the source range, the plain static_cast executes
(exception_not_possible); otherwise the runtime checked cast executes and the
returned checked_result is converted to the stored type by the silent union
read (exception_possible path, `return rx;`).
In the source the containment test is `r_interval.includes(t_interval)` over
checked_result bounds obtained by checked::cast against the storage type's
native range: a source bound outside the native range makes the tribool test
indeterminate (hence false as a bool), and such a bound is also outside
[Min, Max], so the test is equivalently embedded as the direct range
containment below.  The `r_interval.excludes` static_assert is a build-time
rejection and is a precondition of the theorems that use this function. -/
def validate_detail_return_value (EP : ExceptionPolicy) (Min Max tmin tmax t : Int) : CRun Int :=
  if tmax ≤ Max ∧ Min ≤ tmin then
    .ok (static_cast_wrap Min Max t)
  else
    match hetero_checked_cast EP Min Max t with
    | .error ex => .error ex
    | .ok rx => .ok rx.readR

/-- safe_base_operations.hpp lines 545-560, casting_helper: cast both
operands to the result type R with native range [rbl, rbu]; a failed cast is
dispatched, and if the dispatcher returns, the plain static_cast of the
operand stands in (`tx.exception() ? static_cast<R>(t) : tx.m_contents.m_r`). -/
def casting_helper (EP : ExceptionPolicy) (rbl rbu t u : Int) : CRun (Int × Int) :=
  match hetero_checked_cast EP rbl rbu t with
  | .error ex => .error ex
  | .ok tx =>
    match hetero_checked_cast EP rbl rbu u with
    | .error ex => .error ex
    | .ok ux =>
      .ok (if tx.exception then static_cast_wrap rbl rbu t else tx.readR,
           if ux.exception then static_cast_wrap rbl rbu u else ux.readR)

/-- safe_base_operations.hpp lines 625-643, addition_result::
get_r_type_interval: the operand static ranges cast into the result base type
(native range [rbl, rbu]) as checked bounds, added with interval operator+
(lower = t.l + u.l, upper = t.u + u.u over checked_result arithmetic). -/
def addition_r_interval (rbl rbu tl tu ul uu : Int) : checked_result × checked_result :=
  (cr_add rbl rbu (cr_cast rbl rbu tl) (cr_cast rbl rbu ul),
   cr_add rbl rbu (cr_cast rbl rbu tu) (cr_cast rbl rbu uu))

/-- safe_base_operations.hpp lines 645-651, addition_result::return_interval,
lower bound: the computed lower bound, clamped to the storage type's minimum
when the bound computation carries failure state. -/
def addition_rl (rbl rbu tl tu ul uu : Int) : Int :=
  if (addition_r_interval rbl rbu tl tu ul uu).1.exception then rbl
  else (addition_r_interval rbl rbu tl tu ul uu).1.readR

/-- safe_base_operations.hpp lines 645-651, addition_result::return_interval,
upper bound: clamped to the storage type's maximum when the bound computation
carries failure state. -/
def addition_ru (rbl rbu tl tu ul uu : Int) : Int :=
  if (addition_r_interval rbl rbu tl tu ul uu).2.exception then rbu
  else (addition_r_interval rbl rbu tl tu ul uu).2.readR

/-- safe_base_operations.hpp lines 654-659, addition_result::
exception_possible: true when a bound of the candidate range carries failure
state or the clamped return interval does not include the candidate range. -/
def addition_exception_possible (rbl rbu tl tu ul uu : Int) : Bool :=
  if (addition_r_interval rbl rbu tl tu ul uu).1.exception then true
  else if (addition_r_interval rbl rbu tl tu ul uu).2.exception then true
  else if ! interval.includesIv
      ⟨addition_rl rbl rbu tl tu ul uu, addition_ru rbl rbu tl tu ul uu⟩
      ⟨(addition_r_interval rbl rbu tl tu ul uu).1.readR,
       (addition_r_interval rbl rbu tl tu ul uu).2.readR⟩ then true
  else false

/-- safe_base_operations.hpp lines 610-621, addition_result::return_value on
the exception-possible path: cast both operands, run the checked add, and on
a reported-but-not-thrown failure fall back to the native addition of the two
cast operands (`rx.exception() ? r.first + r.second : rx.m_contents.m_r`). -/
def addition_checked_return_value (EP : ExceptionPolicy) (rbl rbu t u : Int) : CRun Int :=
  match casting_helper EP rbl rbu t u with
  | .error ex => .error ex
  | .ok r =>
    match checked_op_add EP rbl rbu r.1 r.2 with
    | .error ex => .error ex
    | .ok rx => .ok (if rx.exception then r.1 + r.2 else rx.readR)

/-- safe_base_operations.hpp lines 595-599 and 673-677, addition_result::
return_value: the fast path computes the native addition of the two operands
cast (static_cast) into the result base type; the exception-possible path
runs the checked primitive.  The produced safe_base stores this value via the
skip_validation constructor. -/
def addition_return_value (EP : ExceptionPolicy) (rbl rbu tl tu ul uu t u : Int) : CRun Int :=
  if addition_exception_possible rbl rbu tl tu ul uu then
    addition_checked_return_value EP rbl rbu t u
  else
    .ok (static_cast_wrap rbl rbu t + static_cast_wrap rbl rbu u)

/-- safe_base_operations.hpp lines 726-737, subtraction_result::return_value
on the exception-possible path, transcribed as written: on a
reported-but-not-thrown failure of the checked subtract the source computes
`r.first + r.second` (line 736) — an addition — as the placeholder value. -/
def subtraction_checked_return_value (EP : ExceptionPolicy) (rbl rbu t u : Int) : CRun Int :=
  match casting_helper EP rbl rbu t u with
  | .error ex => .error ex
  | .ok r =>
    match checked_op_subtract EP rbl rbu r.1 r.2 with
    | .error ex => .error ex
    | .ok rx => .ok (if rx.exception then r.1 + r.2 else rx.readR)

/-- safe_base_operations.hpp lines 829-840, multiplication_result::
return_value on the exception-possible path: the placeholder on a
reported-but-not-thrown checked failure is the native multiplication
`r.first * r.second`. -/
def multiplication_checked_return_value (EP : ExceptionPolicy) (rbl rbu t u : Int) : CRun Int :=
  match casting_helper EP rbl rbu t u with
  | .error ex => .error ex
  | .ok r =>
    match checked_op_multiply EP rbl rbu r.1 r.2 with
    | .error ex => .error ex
    | .ok rx => .ok (if rx.exception then r.1 * r.2 else rx.readR)

/-- safe_base_operations.hpp lines 977-992, division_result::
get_r_type_interval: if the divisor interval provably excludes zero
(u.u < 0 or u.l > 0 over checked_result comparisons), the interval operator/
(min and max of the four corner checked divisions, interval.hpp lines
174-180); otherwise the min and max of the eight listed corner expressions
including divisors -1 and 1. -/
def division_r_interval (rbl rbu tl tu ul uu : Int) : checked_result × checked_result :=
  let Tl := cr_cast rbl rbu tl
  let Tu := cr_cast rbl rbu tu
  let Ul := cr_cast rbl rbu ul
  let Uu := cr_cast rbl rbu uu
  if cr_lt Uu (.ofValue 0) = .ttrue ∨ cr_lt (.ofValue 0) Ul = .ttrue then
    cr_minmax4 (cr_div rbl rbu Tl Ul) (cr_div rbl rbu Tl Uu)
      (cr_div rbl rbu Tu Ul) (cr_div rbl rbu Tu Uu)
  else
    cr_minmax8 (cr_div rbl rbu Tl Ul) (cr_div rbl rbu Tl (.ofValue (-1)))
      (cr_div rbl rbu Tl (.ofValue 1)) (cr_div rbl rbu Tl Uu)
      (cr_div rbl rbu Tu Ul) (cr_div rbl rbu Tu (.ofValue (-1)))
      (cr_div rbl rbu Tu (.ofValue 1)) (cr_div rbl rbu Tu Uu)

/-- safe_base_operations.hpp lines 1005-1010, division_result::
exception_possible: true when the divisor's interval includes zero
(three-valued includes over the checked bounds, true only when provable) or a
bound of the candidate result range carries failure state. -/
def division_exception_possible (rbl rbu tl tu ul uu : Int) : Bool :=
  decide ((cr_le (cr_cast rbl rbu ul) (.ofValue 0)).and
      (cr_le (.ofValue 0) (cr_cast rbl rbu uu)) = .ttrue)
    || (division_r_interval rbl rbu tl tu ul uu).1.exception
    || (division_r_interval rbl rbu tl tu ul uu).2.exception

/-- safe_base_operations.hpp lines 943-960, division_result::return_value on
the exception-possible path: cast both operands into the widened temporary
base type (native range [tbl, tbu]), run the checked divide, fall back to the
native division on a reported-but-not-thrown failure, and convert the result
to the result base type (native range [rbl, rbu]). -/
def division_checked (EP : ExceptionPolicy) (rbl rbu tbl tbu t u : Int) : CRun Int :=
  match casting_helper EP tbl tbu t u with
  | .error ex => .error ex
  | .ok r =>
    match checked_op_divide EP tbl tbu r.1 r.2 with
    | .error ex => .error ex
    | .ok rx =>
      .ok (static_cast_wrap rbl rbu (if rx.exception then Int.tdiv r.1 r.2 else rx.readR))

/-- safe_base_operations.hpp lines 924-928 and 1019-1023, division_result::
return_value: the fast path computes the plain native division of the two
operands cast into the result base type; the exception-possible path runs the
checked primitive over the widened temporary type. -/
def division_return_value (EP : ExceptionPolicy) (rbl rbu tbl tbu tl tu ul uu t u : Int) : CRun Int :=
  if division_exception_possible rbl rbu tl tu ul uu then
    division_checked EP rbl rbu tbl tbu t u
  else
    .ok (Int.tdiv (static_cast_wrap rbl rbu t) (static_cast_wrap rbl rbu u))

/-- safe_base_operations.hpp lines 1318-1338, equal_result::return_value: the
short-circuit `if (!intersect(t_interval, u_interval)) return false;` over the
operand static ranges, then the value comparison (both the
exception-possible branch — safe_compare::equal of the cast operands — and
the fast branch — native == of the cast operands — compare the mathematical
operand values). -/
def equal_return_value (tl tu ul uu t u : Int) : Bool :=
  if intersect ⟨tl, tu⟩ ⟨ul, uu⟩ = false then false
  else decide (t = u)

/-- Bit length of a Nat, written with an explicit structural fuel argument so
that it reduces by evaluation (the fuel is the number itself, which bounds
the number of halvings). -/
def bitLenAux : Nat → Nat → Nat
  | 0, _ => 0
  | fuel + 1, n => if n = 0 then 0 else bitLenAux fuel (n / 2) + 1

/-- Modelled from the spec: utility::round_out of utility.hpp (not in the
source tree) — spec §4.5 says the bitwise result's declared range is always
[0, next-representable-max]: round_out rounds its argument up to the nearest
number of the form 2^n - 1. -/
def round_out (x : Int) : Int :=
  2 ^ bitLenAux x.toNat x.toNat - 1

/-- part_000 lines 1648-1656, bitwise_or_result::type: the declared
compile-time lower bound of the bitwise-or result type is r_type(0), which
converts to 0 in the result base type. -/
def bitwise_or_result_min : Int := 0

/-- part_000 lines 1648-1656, bitwise_or_result::type: the declared upper
bound — round_out of the larger of the two operand type maxima viewed as
unsigned bit patterns (tmax, umax: the operand maxima, non-negative in the
instantiations considered here). -/
def bitwise_or_result_max (tmax umax : Int) : Int :=
  round_out (max tmax umax)

/-- part_000 lines 1658-1662, bitwise_or_result::return_value: the plain
bitwise or of the two operand values on the signed result base type
(two's-complement semantics, Int.lor), handed to the skip_validation
constructor with no range check and no dispatch through any policy. -/
def bitwise_or_return_value (t u : Int) : Int :=
  Int.lor t u

/-! Helper lemmas shared by the claim theorems. -/

theorem static_cast_wrap_self {lo hi t : Int} (h1 : lo ≤ t) (h2 : t ≤ hi) :
    static_cast_wrap lo hi t = t := by
  unfold static_cast_wrap
  have h3 : (t - lo) % (hi - lo + 1) = t - lo :=
    Int.emod_eq_of_lt (by omega) (by omega)
  omega

theorem static_cast_wrap_mem {lo hi : Int} (t : Int) (h : lo ≤ hi) :
    lo ≤ static_cast_wrap lo hi t ∧ static_cast_wrap lo hi t ≤ hi := by
  unfold static_cast_wrap
  have h1 : 0 ≤ (t - lo) % (hi - lo + 1) := Int.emod_nonneg _ (by omega)
  have h2 : (t - lo) % (hi - lo + 1) < hi - lo + 1 := Int.emod_lt_of_pos _ (by omega)
  omega

theorem cr_cast_eq_ofValue {lo hi t : Int} (h1 : lo ≤ t) (h2 : t ≤ hi) :
    cr_cast lo hi t = .ofValue t := by
  unfold cr_cast
  rw [if_neg (by omega), if_neg (by omega)]

theorem cr_cast_success_inv {lo hi t : Int} (h : (cr_cast lo hi t).exception = false) :
    lo ≤ t ∧ t ≤ hi ∧ (cr_cast lo hi t).readR = t := by
  unfold cr_cast at h ⊢
  split_ifs at h ⊢ with h1 h2 <;>
    simp_all [checked_result.exception, checked_result.ofError, checked_result.ofValue,
      checked_result.readR]

theorem cr_add_success_inv {lo hi : Int} {a b : checked_result}
    (h : (cr_add lo hi a b).exception = false) :
    a.exception = false ∧ b.exception = false ∧ lo ≤ a.readR + b.readR ∧
      a.readR + b.readR ≤ hi ∧ (cr_add lo hi a b).readR = a.readR + b.readR := by
  unfold cr_add at h ⊢
  split_ifs at h ⊢ with h1 h2 h3 h4 <;>
    simp_all [checked_result.exception, checked_result.ofError, checked_result.ofValue,
      checked_result.readR]

theorem dispatch_and_return_arith_error {EP : ExceptionPolicy} (e : safe_numerics_error)
    {msg : String} (hEP : EP.on_arithmetic_error = true)
    (ha : make_safe_numerics_action e = .arithmetic_error) :
    dispatch_and_return EP e msg = .error (e, msg) := by
  unfold dispatch_and_return dispatch
  rw [ha]
  simp [throwsOn, hEP]

theorem hetero_checked_cast_ok_inv {EP : ExceptionPolicy} {lo hi t : Int} {rx : checked_result}
    (hEP : EP.on_arithmetic_error = true) (h : hetero_checked_cast EP lo hi t = .ok rx) :
    rx = .ofValue t ∧ lo ≤ t ∧ t ≤ hi := by
  unfold hetero_checked_cast at h
  split_ifs at h with h1 h2
  · rw [dispatch_and_return_arith_error .positive_overflow_error hEP rfl] at h
    exact absurd h (by simp)
  · rw [dispatch_and_return_arith_error .negative_overflow_error hEP rfl] at h
    exact absurd h (by simp)
  · refine ⟨?_, by omega, by omega⟩
    cases h
    rfl

theorem checked_op_add_ok_inv {EP : ExceptionPolicy} {lo hi a b : Int} {rx : checked_result}
    (hEP : EP.on_arithmetic_error = true) (h : checked_op_add EP lo hi a b = .ok rx) :
    rx = .ofValue (a + b) ∧ lo ≤ a + b ∧ a + b ≤ hi := by
  unfold checked_op_add at h
  split_ifs at h with h1 h2
  · rw [dispatch_and_return_arith_error .positive_overflow_error hEP rfl] at h
    exact absurd h (by simp)
  · rw [dispatch_and_return_arith_error .negative_overflow_error hEP rfl] at h
    exact absurd h (by simp)
  · refine ⟨?_, by omega, by omega⟩
    cases h
    rfl

theorem casting_helper_ok_inv {EP : ExceptionPolicy} {lo hi t u : Int} {p : Int × Int}
    (hEP : EP.on_arithmetic_error = true) (h : casting_helper EP lo hi t u = .ok p) :
    (p.1 = t ∧ p.2 = u) ∧ lo ≤ t ∧ t ≤ hi ∧ lo ≤ u ∧ u ≤ hi := by
  unfold casting_helper at h
  cases hc1 : hetero_checked_cast EP lo hi t with
  | error ex => rw [hc1] at h; exact absurd h (by simp)
  | ok tx =>
    rw [hc1] at h
    cases hc2 : hetero_checked_cast EP lo hi u with
    | error ex => rw [hc2] at h; exact absurd h (by simp)
    | ok ux =>
      rw [hc2] at h
      obtain ⟨htx, ht1, ht2⟩ := hetero_checked_cast_ok_inv hEP hc1
      obtain ⟨hux, hu1, hu2⟩ := hetero_checked_cast_ok_inv hEP hc2
      subst htx hux
      cases h
      refine ⟨⟨?_, ?_⟩, ht1, ht2, hu1, hu2⟩ <;>
        simp [checked_result.exception, checked_result.ofValue, checked_result.readR]

end SafeNumerics

namespace SafeNumerics

/-! Claim theorems. -/

/-- C6: for all intervals [l1, u1] and [l2, u2], interval operator+ returns
exactly [l1+l2, u1+u2] and interval operator- returns exactly [l1-u2, u1-l2];
moreover these output ranges contain every pointwise sum and difference of
elements of the operand ranges. -/
theorem interval_add_sub_exact (t u : interval) :
    (interval.add t u = ⟨t.l + u.l, t.u + u.u⟩ ∧
     interval.sub t u = ⟨t.l - u.u, t.u - u.l⟩) ∧
    (∀ x y : Int, t.l ≤ x → x ≤ t.u → u.l ≤ y → y ≤ u.u →
      (interval.add t u).l ≤ x + y ∧ x + y ≤ (interval.add t u).u ∧
      (interval.sub t u).l ≤ x - y ∧ x - y ≤ (interval.sub t u).u) := by
  refine ⟨⟨rfl, rfl⟩, ?_⟩
  intro x y hx1 hx2 hy1 hy2
  unfold interval.add interval.sub
  refine ⟨?_, ?_, ?_, ?_⟩ <;> simp <;> omega

/-- C6 witness: the theorem applied to the intervals [0,5] and [1,2] and the
member points 3 and 1. -/
theorem interval_add_sub_exact_witness :
    (interval.add ⟨0, 5⟩ ⟨1, 2⟩).l ≤ 3 + 1 ∧ 3 + 1 ≤ (interval.add ⟨0, 5⟩ ⟨1, 2⟩).u ∧
    (interval.sub ⟨0, 5⟩ ⟨1, 2⟩).l ≤ 3 - 1 ∧ 3 - 1 ≤ (interval.sub ⟨0, 5⟩ ⟨1, 2⟩).u :=
  (interval_add_sub_exact ⟨0, 5⟩ ⟨1, 2⟩).2 3 1 (by decide) (by decide) (by decide) (by decide)

/-- C7: for well-formed intervals the ordering operators are three-valued:
operator< is ttrue exactly when every element of t is less than every element
of u, tfalse exactly when every element of t is greater than every element of
u, and indeterminate exactly when the ranges overlap; operator> mirrors it,
and the derived operators <=, >= are ttrue only when every element of one
interval precedes (resp. follows) every element of the other. -/
theorem interval_ordering_three_valued (t u : interval)
    (ht : t.l ≤ t.u) (hu : u.l ≤ u.u) :
    (interval.lt t u = .ttrue ↔
      ∀ x y : Int, t.l ≤ x → x ≤ t.u → u.l ≤ y → y ≤ u.u → x < y) ∧
    (interval.lt t u = .tfalse ↔
      ∀ x y : Int, t.l ≤ x → x ≤ t.u → u.l ≤ y → y ≤ u.u → y < x) ∧
    (interval.lt t u = .indeterminate ↔ (u.l ≤ t.u ∧ t.l ≤ u.u)) ∧
    (interval.gt t u = .ttrue ↔
      ∀ x y : Int, t.l ≤ x → x ≤ t.u → u.l ≤ y → y ≤ u.u → y < x) ∧
    (interval.le t u = .ttrue →
      ∀ x y : Int, t.l ≤ x → x ≤ t.u → u.l ≤ y → y ≤ u.u → x ≤ y) ∧
    (interval.ge t u = .ttrue →
      ∀ x y : Int, t.l ≤ x → x ≤ t.u → u.l ≤ y → y ≤ u.u → y ≤ x) := by
  refine ⟨?_, ?_, ?_, ?_, ?_, ?_⟩
  · constructor
    · intro h x y hx1 hx2 hy1 hy2
      unfold interval.lt at h
      split_ifs at h with h1 h2 <;> omega
    · intro hall
      have hk := hall t.u u.l ht le_rfl le_rfl hu
      unfold interval.lt
      split_ifs with h1 h2 <;> first | rfl | omega
  · constructor
    · intro h x y hx1 hx2 hy1 hy2
      unfold interval.lt at h
      split_ifs at h with h1 h2 <;> omega
    · intro hall
      have hk := hall t.l u.u le_rfl ht hu le_rfl
      unfold interval.lt
      split_ifs with h1 h2 <;> first | rfl | omega
  · constructor
    · intro h
      unfold interval.lt at h
      split_ifs at h with h1 h2 <;> omega
    · intro hov
      unfold interval.lt
      split_ifs with h1 h2 <;> first | rfl | omega
  · constructor
    · intro h x y hx1 hx2 hy1 hy2
      unfold interval.gt at h
      split_ifs at h with h1 h2 <;> omega
    · intro hall
      have hk := hall t.l u.u le_rfl ht hu le_rfl
      unfold interval.gt
      split_ifs with h1 h2 <;> first | rfl | omega
  · intro h x y hx1 hx2 hy1 hy2
    unfold interval.le at h
    cases hg : interval.gt t u <;> simp [tribool.neg, hg] at h
    unfold interval.gt at hg
    split_ifs at hg with g1 g2 <;> omega
  · intro h x y hx1 hx2 hy1 hy2
    unfold interval.ge at h
    cases hg : interval.lt t u <;> simp [tribool.neg, hg] at h
    unfold interval.lt at hg
    split_ifs at hg with g1 g2 <;> omega

/-- C7 witness: the theorem applied to the disjoint intervals [0,5] and
[10,20], whose members 5 and 10 compare strictly. -/
theorem interval_ordering_three_valued_witness :
    (interval.lt ⟨0, 5⟩ ⟨10, 20⟩ = .ttrue ↔
      ∀ x y : Int, 0 ≤ x → x ≤ 5 → 10 ≤ y → y ≤ 20 → x < y) :=
  (interval_ordering_three_valued ⟨0, 5⟩ ⟨10, 20⟩ (by decide) (by decide)).1

/-- C10: for well-formed intervals the intersect predicate as written in the
source (a disjunction of the two overlap inequalities) always returns true —
it never reports two intervals as disjoint — and hence the equality
operator's short-circuit branch that returns false when the operand ranges do
not intersect is never taken: the result is always the value comparison. -/
theorem intersect_always_true (t u : interval) (ht : t.l ≤ t.u) (hu : u.l ≤ u.u) :
    intersect t u = true ∧
    (∀ a b : Int, equal_return_value t.l t.u u.l u.u a b = decide (a = b)) := by
  have hi : intersect t u = true := by
    simp only [intersect, Bool.or_eq_true, decide_eq_true_eq]
    omega
  refine ⟨hi, ?_⟩
  intro a b
  unfold equal_return_value
  rw [if_neg]
  exact fun h => by rw [hi] at h; exact Bool.noConfusion h

/-- C10 witness: the theorem applied to the disjoint intervals [0,1] and
[5,6]: intersect still answers true and equality still compares the values. -/
theorem intersect_always_true_witness :
    intersect ⟨0, 1⟩ ⟨5, 6⟩ = true ∧ equal_return_value 0 1 5 6 3 3 = decide ((3 : Int) = 3) :=
  ⟨(intersect_always_true ⟨0, 1⟩ ⟨5, 6⟩ (by decide) (by decide)).1,
   (intersect_always_true ⟨0, 1⟩ ⟨5, 6⟩ (by decide) (by decide)).2 3 3⟩

end SafeNumerics

namespace SafeNumerics

/-- C2: safe_compare::less_than returns the mathematically correct comparison
of the operand values for every pair of built-in integer operands of any
signedness (an unsigned operand's value being non-negative); in particular a
negative signed operand is never converted to a large unsigned magnitude —
the mixed-sign guard answers before any conversion. -/
theorem safe_compare_less_than_correct (TS US : Bool) (t u : Int)
    (ht : TS = false → 0 ≤ t) (hu : US = false → 0 ≤ u) :
    safe_compare.less_than TS US t u = decide (t < u) := by
  cases TS <;> cases US
  · simp only [safe_compare.less_than, safe_compare.detail_less_than]
  · have := ht rfl
    simp only [safe_compare.less_than, safe_compare.detail_less_than]
    split_ifs with h
    · rw [eq_comm, decide_eq_false_iff_not]
      omega
    · rfl
  · have := hu rfl
    simp only [safe_compare.less_than, safe_compare.detail_less_than]
    split_ifs with h
    · rw [eq_comm, decide_eq_true_eq]
      omega
    · rfl
  · simp only [safe_compare.less_than, safe_compare.detail_less_than]

/-- C2 witness: a signed operand holding -1 against an unsigned 64-bit
operand holding that type's maximum compares as less-than. -/
theorem safe_compare_less_than_correct_witness :
    safe_compare.less_than true false (-1) 18446744073709551615 = true := by
  have h := safe_compare_less_than_correct true false (-1) 18446744073709551615
    (by decide) (by decide)
  simpa using h

/-- C8 counterexample: extracting the wrapped value (operator R) from a
checked_result holding a failure does NOT assert/abort — at the concrete
failure instance below the conversion returns a value (the claim states it
should be the failed assertion, modelled as none). -/
theorem checked_result_operatorR_does_not_abort :
    ¬ ((checked_result.ofError .range_error "invalid result").operatorR = none) := by
  simp [checked_result.operatorR]

/-- C8 amended: the conversion to the underlying type performs no assertion —
it silently returns the union's value-member bits for every checked_result,
failures included (the source comments the assert out); it is the message
accessor (operator const char *) that asserts, aborting when the instance
holds a success instead of a failure. -/
theorem checked_result_value_access_no_assert (c : checked_result) :
    c.operatorR.isSome = true ∧ (c.m_e = .success → c.operatorMsg = none) := by
  refine ⟨rfl, ?_⟩
  intro h
  simp [checked_result.operatorMsg, checked_result.exception, h]

/-- C8 amended witness: the theorem applied to a concrete success-holding
checked_result. -/
theorem checked_result_value_access_no_assert_witness :
    (checked_result.ofValue 5).operatorR.isSome = true ∧
    (checked_result.ofValue 5).operatorMsg = none :=
  ⟨(checked_result_value_access_no_assert (checked_result.ofValue 5)).1,
   (checked_result_value_access_no_assert (checked_result.ofValue 5)).2 rfl⟩

end SafeNumerics

namespace SafeNumerics

/-- C9: for every value v representable in a ranged type [Min, Max], casting
through validated_cast to a type whose range [Rmin, Rmax] covers [Min, Max]
succeeds and preserves the value, and casting back into [Min, Max] (the
source static range now being the wider type's native range) succeeds and
returns the original value — a failure occurs in neither direction, for any
exception policy.  [Smin, Smax] is the native range of the stored type on the
outgoing direction and is unconstrained. -/
theorem validated_cast_roundtrip (EP : ExceptionPolicy)
    (Rmin Rmax Min Max Smin Smax v : Int)
    (h1 : Rmin ≤ Min) (h2 : Max ≤ Rmax) (h3 : Min ≤ v) (h4 : v ≤ Max) :
    validate_detail_return_value EP Rmin Rmax Smin Smax v = .ok v ∧
    validate_detail_return_value EP Min Max Rmin Rmax v = .ok v := by
  constructor
  · unfold validate_detail_return_value
    split_ifs with hc
    · rw [static_cast_wrap_self (by omega) (by omega)]
    · unfold hetero_checked_cast
      rw [if_neg (by omega), if_neg (by omega)]
      rfl
  · unfold validate_detail_return_value
    split_ifs with hc
    · rw [static_cast_wrap_self (by omega) (by omega)]
    · unfold hetero_checked_cast
      rw [if_neg (by omega), if_neg (by omega)]
      rfl

/-- C9 witness: the theorem applied to an 8-bit ranged value 42 in
[-128, 127] cast out to the 16-bit range [-32768, 32767] and back. -/
theorem validated_cast_roundtrip_witness :
    validate_detail_return_value default_exception_policy (-32768) 32767 (-128) 127 42 = .ok 42 ∧
    validate_detail_return_value default_exception_policy (-128) 127 (-32768) 32767 42 = .ok 42 :=
  validated_cast_roundtrip default_exception_policy (-32768) 32767 (-128) 127 (-128) 127 42
    (by decide) (by decide) (by decide) (by decide)

/-- C4: adding two ranged values of the full 8-bit signed range holding 127
and 2 under the default exception policy: the instantiation whose result base
type is the 8-bit type itself reports the failure positive_overflow_error —
which the policy routes through the arithmetic-error action — and never
produces the wrapped value -127; under the native promotion the + itself
computes 129 in the wider type and the positive overflow is reported when
that result is validated into the 8-bit range (the assignment in example1). -/
theorem int8_addition_overflow_reported :
    addition_return_value default_exception_policy (-128) 127 (-128) 127 (-128) 127 127 2
      = .error (.positive_overflow_error, "addition result too large") ∧
    make_safe_numerics_action .positive_overflow_error = .arithmetic_error ∧
    addition_return_value default_exception_policy (-128) 127 (-128) 127 (-128) 127 127 2
      ≠ .ok (-127) ∧
    addition_return_value default_exception_policy (-2147483648) 2147483647 (-128) 127 (-128) 127 127 2
      = .ok 129 ∧
    validate_detail_return_value default_exception_policy (-128) 127 (-256) 254 129
      = .error (.positive_overflow_error, "converted value too large") := by
  have h1 : addition_return_value default_exception_policy (-128) 127 (-128) 127 (-128) 127 127 2
      = .error (.positive_overflow_error, "addition result too large") := rfl
  refine ⟨h1, rfl, ?_, rfl, rfl⟩
  rw [h1]
  exact fun h => Except.noConfusion h

/-- C5: in the subtraction operator's runtime-checked path, when the checked
primitive reports a failure that the policy does not throw on, the source
computes the placeholder r.first + r.second (line 736) — an addition, not the
native subtraction: subtracting 1 from -128 in the 8-bit instantiation under
an all-ignore policy yields -127 = -128 + 1 instead of -128 - 1.  The
addition and multiplication operators' placeholders are the corresponding
native operations as claimed. -/
theorem subtraction_checked_fallback_is_addition :
    subtraction_checked_return_value ignore_all_policy (-128) 127 (-128) 1 = .ok (-128 + 1) ∧
    (-128 : Int) + 1 ≠ (-128 : Int) - 1 ∧
    addition_checked_return_value ignore_all_policy (-128) 127 127 2 = .ok (127 + 2) ∧
    multiplication_checked_return_value ignore_all_policy (-128) 127 64 4 = .ok (64 * 4) :=
  ⟨rfl, by decide, rfl, rfl⟩

end SafeNumerics

namespace SafeNumerics

theorem exception_ofValue (r : Int) : (checked_result.ofValue r).exception = false := rfl

theorem readR_ofValue (r : Int) : (checked_result.ofValue r).readR = r := rfl

theorem cr_le_values (a b : Int) :
    cr_le (.ofValue a) (.ofValue b) = .ofB (decide (a ≤ b)) := by
  unfold cr_le
  rw [exception_ofValue, exception_ofValue, readR_ofValue, readR_ofValue]
  simp

theorem addition_exception_possible_false_inv {rbl rbu tl tu ul uu : Int}
    (h : addition_exception_possible rbl rbu tl tu ul uu = false) :
    (addition_r_interval rbl rbu tl tu ul uu).1.exception = false ∧
    (addition_r_interval rbl rbu tl tu ul uu).2.exception = false := by
  unfold addition_exception_possible at h
  split_ifs at h with h1 h2 h3
  exact ⟨by simpa using h1, by simpa using h2⟩

/-- Supporting invariant: the stored value produced by validated
construction or by the addition operator lies within the produced type's
declared bounds, for a policy that throws on arithmetic errors (the shipped
default/strict/loose policies all do; the opt-in all-ignore configuration is
the spec's "silent ignore" tier which knowingly yields best-effort values).
Part one: validated construction from a convertible value of static range
[tmin, tmax] stores a value in [Min, Max] whenever it returns.  Part two:
the addition operator (both its fast skip-validation path and its
runtime-checked path) stores a value within the result type's declared
bounds [addition_rl, addition_ru] whenever it returns.  The bitwise operator
result paths do NOT maintain this invariant — see the theorem on
bitwise_or_return_value below. -/
theorem ranged_value_stored_in_bounds (EP : ExceptionPolicy)
    (Min Max tmin tmax x rbl rbu tl tu ul uu t u : Int)
    (hEP : EP.on_arithmetic_error = true) (hMM : Min ≤ Max)
    (ht1 : tl ≤ t) (ht2 : t ≤ tu) (hu1 : ul ≤ u) (hu2 : u ≤ uu) :
    (∀ m : Int, validate_detail_return_value EP Min Max tmin tmax x = .ok m →
      Min ≤ m ∧ m ≤ Max) ∧
    (∀ m : Int, addition_return_value EP rbl rbu tl tu ul uu t u = .ok m →
      addition_rl rbl rbu tl tu ul uu ≤ m ∧ m ≤ addition_ru rbl rbu tl tu ul uu) := by
  constructor
  · intro m h
    unfold validate_detail_return_value at h
    split_ifs at h with hc
    · cases h
      exact static_cast_wrap_mem x hMM
    · cases hcast : hetero_checked_cast EP Min Max x with
      | error ex => rw [hcast] at h; exact absurd h (by simp)
      | ok rx =>
        rw [hcast] at h
        obtain ⟨hrx, hx1, hx2⟩ := hetero_checked_cast_ok_inv hEP hcast
        subst hrx
        cases h
        rw [readR_ofValue]
        exact ⟨hx1, hx2⟩
  · intro m h
    unfold addition_return_value at h
    split_ifs at h with hflag
    · -- runtime-checked path
      unfold addition_checked_return_value at h
      cases hch : casting_helper EP rbl rbu t u with
      | error ex => rw [hch] at h; exact absurd h (by simp)
      | ok p =>
        rw [hch] at h
        obtain ⟨⟨hp1, hp2⟩, hT1, hT2, hU1, hU2⟩ := casting_helper_ok_inv hEP hch
        dsimp only at h
        cases hadd : checked_op_add EP rbl rbu p.1 p.2 with
        | error ex => rw [hadd] at h; exact absurd h (by simp)
        | ok rx =>
          rw [hadd] at h
          obtain ⟨hrx, hs1, hs2⟩ := checked_op_add_ok_inv hEP hadd
          subst hrx
          dsimp only at h
          rw [exception_ofValue] at h
          simp only [Bool.false_eq_true, if_false, readR_ofValue] at h
          cases h
          rw [hp1, hp2] at hs1 hs2 ⊢
          constructor
          · unfold addition_rl
            cases hbe : (addition_r_interval rbl rbu tl tu ul uu).1.exception
            · simp only [hbe, Bool.false_eq_true, if_false]
              unfold addition_r_interval at hbe ⊢
              obtain ⟨hca, hcb, _, _, hval⟩ := cr_add_success_inv hbe
              obtain ⟨g1, g2, g3⟩ := cr_cast_success_inv hca
              obtain ⟨g4, g5, g6⟩ := cr_cast_success_inv hcb
              rw [hval, g3, g6]
              omega
            · simp only [hbe, if_true]
              omega
          · unfold addition_ru
            cases hbe : (addition_r_interval rbl rbu tl tu ul uu).2.exception
            · simp only [hbe, Bool.false_eq_true, if_false]
              unfold addition_r_interval at hbe ⊢
              obtain ⟨hca, hcb, _, _, hval⟩ := cr_add_success_inv hbe
              obtain ⟨g1, g2, g3⟩ := cr_cast_success_inv hca
              obtain ⟨g4, g5, g6⟩ := cr_cast_success_inv hcb
              rw [hval, g3, g6]
              omega
            · simp only [hbe, if_true]
              omega
    · -- fast path, statically proven safe
      obtain ⟨he1, he2⟩ := addition_exception_possible_false_inv (by simpa using hflag)
      unfold addition_r_interval at he1 he2
      obtain ⟨hca, hcb, hlo1, hhi1, hval1⟩ := cr_add_success_inv he1
      obtain ⟨hcc, hcd, hlo2, hhi2, hval2⟩ := cr_add_success_inv he2
      obtain ⟨g1, g2, g3⟩ := cr_cast_success_inv hca
      obtain ⟨g4, g5, g6⟩ := cr_cast_success_inv hcb
      obtain ⟨g7, g8, g9⟩ := cr_cast_success_inv hcc
      obtain ⟨g10, g11, g12⟩ := cr_cast_success_inv hcd
      rw [static_cast_wrap_self (by omega) (by omega),
          static_cast_wrap_self (by omega) (by omega)] at h
      cases h
      constructor
      · unfold addition_rl addition_r_interval
        rw [if_neg (by rw [he1]; exact fun hq => Bool.noConfusion hq), hval1, g3, g6]
        omega
      · unfold addition_ru addition_r_interval
        rw [if_neg (by rw [he2]; exact fun hq => Bool.noConfusion hq), hval2, g9, g12]
        omega

/-- Witness instantiation of the supporting invariant: a validated
construction of 7 into [0, 100] from an 8-bit source and the addition 3 + 4
of two values of static range [0, 10] in an 8-bit storage type. -/
theorem ranged_value_stored_in_bounds_witness :
    ((0 : Int) ≤ 7 ∧ (7 : Int) ≤ 100) ∧
    (addition_rl (-128) 127 0 10 0 10 ≤ 7 ∧ 7 ≤ addition_ru (-128) 127 0 10 0 10) := by
  have h := ranged_value_stored_in_bounds default_exception_policy 0 100 (-128) 127 7
    (-128) 127 0 10 0 10 3 4 rfl (by decide) (by decide) (by decide) (by decide) (by decide)
  exact ⟨h.1 7 rfl, h.2 7 rfl⟩

end SafeNumerics

namespace SafeNumerics

/-- C3: division dispatch.  Part one: when the divisor's static range
provably excludes zero (uu < 0 or 0 < ul with closed, in-range bounds) and no
bound of the candidate result range is open (carries failure state), the
instantiation is not exception-possible and the plain native division
executes.  Part two: when the divisor's static range includes zero, the
instantiation is exception-possible and the checked runtime primitive
executes.  Part three: dividing 10 by a runtime divisor 0 on the checked path
under the default policy reports a failure of kind domain_error. -/
theorem division_dispatch_paths (EP : ExceptionPolicy)
    (rbl rbu tbl tbu tl tu ul uu t u : Int) :
    ((uu < 0 ∨ 0 < ul) → rbl ≤ ul → uu ≤ rbu → ul ≤ uu →
      (division_r_interval rbl rbu tl tu ul uu).1.exception = false →
      (division_r_interval rbl rbu tl tu ul uu).2.exception = false →
      division_exception_possible rbl rbu tl tu ul uu = false ∧
      division_return_value EP rbl rbu tbl tbu tl tu ul uu t u =
        .ok (Int.tdiv (static_cast_wrap rbl rbu t) (static_cast_wrap rbl rbu u))) ∧
    (ul ≤ 0 → 0 ≤ uu → rbl ≤ ul → uu ≤ rbu →
      division_exception_possible rbl rbu tl tu ul uu = true ∧
      division_return_value EP rbl rbu tbl tbu tl tu ul uu t u =
        division_checked EP rbl rbu tbl tbu t u) ∧
    division_checked default_exception_policy (-128) 127 (-128) 127 10 0 =
      .error (.domain_error, "divide by zero") := by
  refine ⟨?_, ?_, rfl⟩
  · intro hz hc1 hc2 hwf he1 he2
    have hUl : cr_cast rbl rbu ul = .ofValue ul := cr_cast_eq_ofValue hc1 (by omega)
    have hUu : cr_cast rbl rbu uu = .ofValue uu := cr_cast_eq_ofValue (by omega) hc2
    have hflag : division_exception_possible rbl rbu tl tu ul uu = false := by
      unfold division_exception_possible
      rw [hUl, hUu, cr_le_values, cr_le_values, he1, he2]
      simp only [Bool.or_false]
      rw [decide_eq_false_iff_not]
      intro hcontr
      rcases hz with hz | hz
      · have hd : decide ((0 : Int) ≤ uu) = false := by
          rw [decide_eq_false_iff_not]; omega
        rw [hd] at hcontr
        cases hde : decide (ul ≤ (0 : Int)) <;> rw [hde] at hcontr <;>
          exact absurd hcontr (by decide)
      · have hd : decide (ul ≤ (0 : Int)) = false := by
          rw [decide_eq_false_iff_not]; omega
        rw [hd] at hcontr
        cases hde : decide ((0 : Int) ≤ uu) <;> rw [hde] at hcontr <;>
          exact absurd hcontr (by decide)
    refine ⟨hflag, ?_⟩
    unfold division_return_value
    simp [hflag]
  · intro hz1 hz2 hc1 hc2
    have hUl : cr_cast rbl rbu ul = .ofValue ul := cr_cast_eq_ofValue hc1 (by omega)
    have hUu : cr_cast rbl rbu uu = .ofValue uu := cr_cast_eq_ofValue (by omega) hc2
    have hflag : division_exception_possible rbl rbu tl tu ul uu = true := by
      unfold division_exception_possible
      rw [hUl, hUu, cr_le_values, cr_le_values]
      have d1 : decide (ul ≤ (0 : Int)) = true := by rw [decide_eq_true_eq]; omega
      have d2 : decide ((0 : Int) ≤ uu) = true := by rw [decide_eq_true_eq]; omega
      rw [d1, d2]
      simp [tribool.ofB, tribool.and]
    refine ⟨hflag, ?_⟩
    unfold division_return_value
    simp [hflag]

/-- C3 witness: the theorem applied to an 8-bit instantiation: dividend range
[0, 100] with divisor range [1, 10] (zero excluded, closed candidate bounds)
takes the native path; dividend range [0, 100] with divisor range
[-128, 127] (zero included) takes the checked path. -/
theorem division_dispatch_paths_witness :
    (division_exception_possible (-128) 127 0 100 1 10 = false ∧
     division_return_value default_exception_policy (-128) 127 (-128) 127 0 100 1 10 10 2 =
       .ok (Int.tdiv (static_cast_wrap (-128) 127 10) (static_cast_wrap (-128) 127 2))) ∧
    (division_exception_possible (-128) 127 0 100 (-128) 127 = true ∧
     division_return_value default_exception_policy (-128) 127 (-128) 127 0 100 (-128) 127 10 0 =
       division_checked default_exception_policy (-128) 127 (-128) 127 10 0) := by
  have h1 := division_dispatch_paths default_exception_policy (-128) 127 (-128) 127 0 100 1 10 10 2
  have h2 := division_dispatch_paths default_exception_policy (-128) 127 (-128) 127 0 100 (-128) 127 10 0
  exact ⟨h1.1 (Or.inr (by decide)) (by decide) (by decide) (by decide) (by decide) (by decide),
         h2.2.1 (by decide) (by decide) (by decide) (by decide)⟩

end SafeNumerics

namespace SafeNumerics

/-- C1: the unrestricted invariant fails on the bitwise operator result
paths, so the claim is right only as the code's intent, not its behavior:
for two full-range 8-bit signed operands holding -1 (result base type the
native int), bitwise_or_result declares the range [0, round_out(127)] =
[0, 127] yet return_value stores the plain signed result -1 | -1 = -1
through the skip_validation constructor — the produced instance's stored
value lies below its declared lower bound, the library's own containment
test rejects it, and no dispatch takes place under any exception policy. -/
theorem bitwise_or_stores_value_below_declared_min :
    bitwise_or_result_min = 0 ∧
    bitwise_or_result_max 127 127 = 127 ∧
    bitwise_or_return_value (-1) (-1) = -1 ∧
    interval.includesPt ⟨bitwise_or_result_min, bitwise_or_result_max 127 127⟩
      (bitwise_or_return_value (-1) (-1)) = false := by
  refine ⟨rfl, by decide, by decide, by decide⟩

end SafeNumerics
